import Mathlib

/-!
Verification of the APY / impermanent-loss calculation core of the
defi-lp-apy-calculator repository (`logic/calculations.py` and
`logic/validation.py`).

The numeric core is embedded as follows.

* The closed-form arithmetic (rate conversion, growth projection,
  impermanent loss) is embedded over `ℝ`, with Python `**` as `Real.rpow`
  and `math.sqrt` / `np.sqrt` as `Real.sqrt`, idealising IEEE doubles as
  exact reals.
* The price-move grid of `build_il_table` is produced by `np.arange` on
  doubles, and its displayed column applies Python `int()` (truncation
  toward zero) to `m * 100`; that computation is sensitive to binary
  floating point, so it is embedded exactly: `Dy` models an IEEE-754
  binary64 value as a dyadic rational mantissa/exponent pair, and every
  grid operation rounds to 53 significant bits, round-to-nearest,
  ties-to-even, exactly as the hardware does (no overflow or subnormals
  occur in this range).
* Python `round(x, 2)` (round-half-to-even at two decimals) is `pyRound2`.
* `assess_pool_quality` works on untyped pool records; `PyVal` models the
  Python values that can appear in a record and `pyFloat` models the
  Python `float(...)` conversion, which fails on non-numeric strings.
-/

/-! ## Exact model of IEEE-754 binary64 arithmetic on dyadic rationals -/

/-- A dyadic rational `m * 2^e`, the exact value of an IEEE-754 double
(doubles reachable here are all finite, normal numbers). -/
structure Dy where
  m : ℤ
  e : ℤ
deriving DecidableEq

/-- Number of binary digits of `n`, with explicit fuel so that the kernel
can evaluate it (`bitLenAux fuel n` is the bit length whenever `n < 2^fuel`). -/
def bitLenAux : ℕ → ℕ → ℕ
  | 0, _ => 0
  | _ + 1, 0 => 0
  | fuel + 1, n => bitLenAux fuel (n / 2) + 1

/-- Bit length of a natural number (all quantities here are far below `2^512`). -/
def bitLen (n : ℕ) : ℕ := bitLenAux 512 n

/-- Round the rational `a / b` (with `b > 0`) to the nearest integer,
ties to even: the rounding used by IEEE-754 and by Python `round`. -/
def roundHE (a b : ℤ) : ℤ :=
  let f := Int.fdiv a b
  let r := a - f * b
  if 2 * r < b then f
  else if b < 2 * r then f + 1
  else if 2 ∣ f then f else f + 1

/-- Round a dyadic value to 53 significant bits (round-to-nearest,
ties-to-even): the rounding a double addition or multiplication applies
to its exact result. -/
def flDy (x : Dy) : Dy :=
  let L := bitLen x.m.natAbs
  if L ≤ 53 then x
  else ⟨roundHE x.m (2 ^ (L - 53)), x.e + (L - 53)⟩

/-- Exact negation of a double. -/
def dyNeg (x : Dy) : Dy := ⟨-x.m, x.e⟩

/-- IEEE-754 double addition: exact sum, then one rounding. -/
def dyAdd (x y : Dy) : Dy :=
  let e := min x.e y.e
  flDy ⟨x.m * 2 ^ (x.e - e).toNat + y.m * 2 ^ (y.e - e).toNat, e⟩

/-- IEEE-754 double subtraction. -/
def dySub (x y : Dy) : Dy := dyAdd x (dyNeg y)

/-- IEEE-754 double multiplication: exact product, then one rounding. -/
def dyMul (x y : Dy) : Dy := flDy ⟨x.m * y.m, x.e + y.e⟩

/-- Decide `2^e ≤ n/d` for naturals `n, d > 0`. -/
def twoPowLe (e : ℤ) (n d : ℕ) : Bool :=
  if 0 ≤ e then d * 2 ^ e.toNat ≤ n else d ≤ n * 2 ^ (-e).toNat

/-- Nearest double to the rational `n / d` (`n ≠ 0`, `d > 0`): the exponent
is located by bit lengths and the 53-bit mantissa is rounded ties-to-even,
which is exactly the IEEE-754 correctly rounded quotient. -/
def dyDivInt (n : ℤ) (d : ℕ) : Dy :=
  let an := n.natAbs
  let e0 : ℤ := (bitLen an : ℤ) - (bitLen d : ℤ)
  let e : ℤ := if twoPowLe e0 an d then e0 else e0 - 1
  let mant : ℤ :=
    if 0 ≤ 52 - e then roundHE (an * 2 ^ (52 - e).toNat) d
    else roundHE an (d * 2 ^ (e - 52).toNat)
  ⟨if 0 ≤ n then mant else -mant, e - 52⟩

/-- IEEE-754 double division. -/
def dyDiv (x y : Dy) : Dy :=
  if x.m = 0 then ⟨0, 0⟩
  else if y.m = 0 then ⟨0, 0⟩
  else
    let q := dyDivInt (if 0 ≤ y.m then x.m else -x.m) y.m.natAbs
    ⟨q.m, q.e + x.e - y.e⟩

/-- The double denoted by a decimal literal `n / d` in the Python source
(for example `0.05` is `dyOfRat 1 20`). -/
def dyOfRat (n : ℤ) (d : ℕ) : Dy := if n = 0 then ⟨0, 0⟩ else dyDivInt n d

/-- The double value of a small integer (exact below `2^53`). -/
def dyOfInt (i : ℤ) : Dy := flDy ⟨i, 0⟩

/-- Python `int()` applied to a double: truncation toward zero. -/
def dyTrunc (x : Dy) : ℤ :=
  if 0 ≤ x.e then x.m * 2 ^ x.e.toNat
  else if 0 ≤ x.m then Int.fdiv x.m (2 ^ (-x.e).toNat)
  else -Int.fdiv (-x.m) (2 ^ (-x.e).toNat)

/-- Ceiling of a double value, as used by `np.arange` to fix the length. -/
def dyCeil (x : Dy) : ℤ :=
  if 0 ≤ x.e then x.m * 2 ^ x.e.toNat
  else -Int.fdiv (-x.m) (2 ^ (-x.e).toNat)

/-- Exact rational value of a dyadic. -/
def dyVal (x : Dy) : ℚ := (x.m : ℚ) * 2 ^ x.e

/-- Model of `numpy.arange(start, stop, step)` on float64 values:
`ceil((stop - start) / step)` elements (each arithmetic operation rounded
to double). numpy writes `start` and `start + step` into the first two
buffer slots and then calls the dtype `fill` routine, which has no step
parameter: it reconstructs `delta = buffer[1] - buffer[0]` and fills
`buffer[i] = start + i * delta` (numpy's `arange` documentation warns that
the actual step used is `dtype(start + step) - dtype(start)`, not `step`). -/
def npArange (start stop step : Dy) : List Dy :=
  let n := dyCeil (dyDiv (dySub stop start) step)
  let delta := dySub (dyAdd start step) start
  (List.range n.toNat).map fun i =>
    if i = 0 then start
    else if i = 1 then dyAdd start step
    else dyAdd start (dyMul (dyOfInt (i : ℤ)) delta)

/-! ## Python rounding helpers over the idealised reals -/

open scoped Classical in
/-- Round a real to the nearest integer, ties to even, as Python `round`
does on its (here idealised) float argument. -/
noncomputable def pyRoundInt (x : ℝ) : ℤ :=
  if x - ⌊x⌋ < 1 / 2 then ⌊x⌋
  else if 1 / 2 < x - ⌊x⌋ then ⌊x⌋ + 1
  else if 2 ∣ ⌊x⌋ then ⌊x⌋ else ⌊x⌋ + 1

/-- Python `round(x, 2)`: round to two decimal places, ties to even. -/
noncomputable def pyRound2 (x : ℝ) : ℝ := (pyRoundInt (x * 100) : ℝ) / 100

/-! ## The calculation core (`logic/calculations.py`) -/

/-- Source `apy_to_daily_rate`: clamp the APY percentage at `0`, then
`daily_rate = (1 + apy) ** (1/365) - 1` (Python `**` on the idealised
reals is `Real.rpow`). The local `apy = max(float(apy_percent), 0.0)/100.0`
is inlined. -/
noncomputable def apy_to_daily_rate (apy_percent : ℝ) : ℝ :=
  (1 + max apy_percent 0 / 100) ^ ((1 : ℝ) / 365) - 1

/-- Source `simple_daily_rate_from_apy`: clamp at `0`, then `apy / 365`. -/
noncomputable def simple_daily_rate_from_apy (apy_percent : ℝ) : ℝ :=
  max apy_percent 0 / 100 / 365

/-- Source `project_end_value`: clamp the position at `0` and the day
count at `0`, then compound (`position * (1+r)**d`) or apportion linearly
(`position * (1 + r*d)`). The locals `position` and `d` are inlined. -/
noncomputable def project_end_value (position_usd apy_percent : ℝ) (days : ℤ)
    (compounded : Bool) : ℝ :=
  if compounded then
    max position_usd 0 * (1 + apy_to_daily_rate apy_percent) ^ (max days 0).toNat
  else
    max position_usd 0 * (1 + simple_daily_rate_from_apy apy_percent * ((max days 0 : ℤ) : ℝ))

/-- Milestone selection of `project_growth_table`:
`sorted(set([1, 7, 14, 30, 60, 90, 180, 365, horizon]))` filtered to
`m <= horizon`, with `horizon = max(int(horizon_days), 1)` (Python's sort
of the deduplicated elements is modelled by an insertion sort). -/
def milestones (horizon_days : ℤ) : List ℤ :=
  List.filter (fun mday => decide (mday ≤ max horizon_days 1))
    (List.insertionSort (· ≤ ·)
      ([1, 7, 14, 30, 60, 90, 180, 365, max horizon_days 1].dedup))

/-- One row of the growth projection table: the `Day`, `Start Value ($)`,
`End Value ($)` and `Profit ($)` columns. -/
structure GrowthRow where
  day : ℤ
  startValue : ℝ
  endValue : ℝ
  profit : ℝ

/-- Source `project_growth_table`: one row per milestone day, each an
independent projection from day 0, every stored currency amount passed
through `round(_, 2)`. -/
noncomputable def project_growth_table (position_usd apy_percent : ℝ)
    (horizon_days : ℤ) (compounded : Bool) : List GrowthRow :=
  (milestones horizon_days).map fun d =>
    let end_value := project_end_value position_usd apy_percent d compounded
    ⟨d, pyRound2 position_usd, pyRound2 end_value, pyRound2 (end_value - position_usd)⟩

/-- Source `impermanent_loss`: `2 * sqrt(1 + price_change) / (2 + price_change) - 1`. -/
noncomputable def impermanent_loss (price_change : ℝ) : ℝ :=
  2 * Real.sqrt (1 + price_change) / (2 + price_change) - 1

/-- One row of the impermanent-loss stress table: the `Price move (%)`,
`IL (%)` and `IL ($)` columns. -/
structure ILRow where
  priceMovePercent : ℤ
  ilPercent : ℝ
  ilUsd : ℝ

/-- Source `build_il_table`: moves from `np.arange(-max_move, max_move + step, step)`
(float64 arithmetic, modelled exactly by `Dy`), each row showing
`int(m * 100)` (a float64 product truncated toward zero by Python `int()`),
with the IL values themselves idealised over `ℝ`. -/
noncomputable def build_il_table (position_usd : ℝ) (step max_move : Dy) : List ILRow :=
  (npArange (dyNeg max_move) (dyAdd max_move step) step).map fun mv =>
    let il := impermanent_loss ((dyVal mv : ℚ) : ℝ)
    ⟨dyTrunc (dyMul mv (dyOfInt 100)), pyRound2 (il * 100), pyRound2 (position_usd * il)⟩

/-! ## The pool-quality assessor (`logic/validation.py`) -/

/-- A Python value that can sit in a raw pool record: `None`, a float
(finite `num` or `nanv` for NaN), a string, or a bool. -/
inductive PyVal where
  | null
  | num (q : ℚ)
  | nanv
  | str (s : String)
  | boolV (b : Bool)
deriving DecidableEq

/-- A Python float: a finite value or NaN. -/
inductive FloatVal where
  | num (q : ℚ)
  | nanv
deriving DecidableEq

/-- Digit string to number. -/
def digitsVal (cs : List Char) : ℕ :=
  cs.foldl (fun acc c => acc * 10 + (c.toNat - 48)) 0

/-- Model of Python `float(string)` on plain decimal literals: an optional
sign, an integer part and an optional fractional part (exponents and the
`nan`/`inf` spellings are not needed here); anything else - in particular a
non-numeric string - fails, as `float()` raises `ValueError`. -/
def parsePyFloat (s : String) : Option ℚ :=
  let withSign : ℚ × List Char :=
    match s.data with
    | '-' :: rest => (-1, rest)
    | '+' :: rest => (1, rest)
    | cs => (1, cs)
  let ip := (withSign.2.span Char.isDigit).1
  let rest := (withSign.2.span Char.isDigit).2
  match rest with
  | [] => if ip.isEmpty then Option.none else some (withSign.1 * digitsVal ip)
  | '.' :: fp =>
    if ip.isEmpty && fp.isEmpty then Option.none
    else if fp.all Char.isDigit then
      some (withSign.1 * ((digitsVal ip : ℚ) + (digitsVal fp : ℚ) / 10 ^ fp.length))
    else Option.none
  | _ => Option.none

/-- Python truthiness of a record value (`None`, `0.0`, `""` and `False`
are falsy; NaN is truthy). -/
def pyTruthy : PyVal → Bool
  | .null => false
  | .num q => decide (q ≠ 0)
  | .nanv => true
  | .str s => !s.isEmpty
  | .boolV b => b

/-- Python `x or y`. -/
def pyOr (x y : PyVal) : PyVal := if pyTruthy x then x else y

/-- Python `float(x)`: floats pass through, bools become `0.0`/`1.0`,
numeric strings are parsed, anything else raises. -/
def pyFloat : PyVal → Except String FloatVal
  | .null => .error "TypeError"
  | .num q => .ok (.num q)
  | .nanv => .ok .nanv
  | .boolV b => .ok (.num (if b then 1 else 0))
  | .str s =>
    match parsePyFloat s with
    | some q => .ok (.num q)
    | Option.none => .error "ValueError"

/-- Python `dict.get(key)` on a pool record: the stored value, or `None`
when the key is absent. -/
def getField (row : List (String × PyVal)) (k : String) : PyVal :=
  match row.find? (fun kv => kv.1 == k) with
  | some kv => kv.2
  | Option.none => PyVal.null

/-- Float comparison `x < c`: false when `x` is NaN. -/
def fvLt (x : FloatVal) (c : ℚ) : Bool :=
  match x with
  | .num q => decide (q < c)
  | .nanv => false

/-- Float comparison `x <= c`: false when `x` is NaN. -/
def fvLe (x : FloatVal) (c : ℚ) : Bool :=
  match x with
  | .num q => decide (q ≤ c)
  | .nanv => false

/-- Python `math.isnan`. -/
def fvIsNan : FloatVal → Bool
  | .nanv => true
  | .num _ => false

/-- Source dataclass `PoolQuality`. -/
structure PoolQuality where
  tvl_usd : FloatVal
  has_volume_7d : Bool
  is_outlier : Option Bool
  apy : FloatVal
  thin_tvl : Bool
  very_thin_tvl : Bool
  missing_or_zero_apy : Bool
deriving DecidableEq

/-- Source `assess_pool_quality`. `tvl` and `apy` come from bare
`float(row.get(k) or 0.0)` calls (which propagate any exception), the
7-day-volume conversion alone is wrapped in `try/except`, the `outlier`
field is normalised from strings and non-bools, and the flags compare
against the nested TVL thresholds. `missing_or_zero_apy` is
`(apy is None) or (float(apy) <= 0.0)` where `apy` is already a float,
hence just the comparison. -/
def assess_pool_quality (pool_row : List (String × PyVal)) : Except String PoolQuality :=
  match pyFloat (pyOr (getField pool_row "tvlUsd") (PyVal.num 0)) with
  | .error e => .error e
  | .ok tvl =>
    match pyFloat (pyOr (getField pool_row "apy") (PyVal.num 0)) with
    | .error e => .error e
    | .ok apy =>
      let has_vol : Bool :=
        match getField pool_row "volumeUsd7d" with
        | .null => false
        | v =>
          match pyFloat v with
          | .ok f => !fvIsNan f
          | .error _ => false
      let outlier : Option Bool :=
        match getField pool_row "outlier" with
        | .str s => some (s.toLower == "true")
        | .boolV b => some b
        | _ => Option.none
      .ok { tvl_usd := tvl
            has_volume_7d := has_vol
            is_outlier := outlier
            apy := apy
            thin_tvl := fvLt tvl 250000
            very_thin_tvl := fvLt tvl 100000
            missing_or_zero_apy := fvLe apy 0 }

/-- A Python float in the idealised-real model: a finite value or NaN
(needed because the data pipeline coerces absent APY fields to NaN with
`pd.to_numeric(..., errors="coerce")` and feeds them to the core). -/
inductive RFloat where
  | fin (x : ℝ)
  | nanr

/-- Source `apy_to_daily_rate` applied to an arbitrary runtime value, as
the caller may do: the body starts with `float(apy_percent)`, so a null
argument raises `TypeError` (before any clamp), and a NaN argument
propagates - Python `max(nan, 0.0)` returns its first argument `nan`
(comparisons with NaN are false), and `nan` then flows through `/`, `+`,
`**` and `-` to a NaN rate; a finite value follows the real-valued
`apy_to_daily_rate`. -/
noncomputable def apy_to_daily_rate_py (apy_percent : PyVal) : Except String RFloat :=
  match pyFloat apy_percent with
  | .error e => .error e
  | .ok (.num q) => .ok (.fin (apy_to_daily_rate (q : ℝ)))
  | .ok .nanv => .ok .nanr

/-- The property of being a nonnegative daily rate; NaN is not one. -/
def rfloatNonneg : RFloat → Prop
  | .fin x => 0 ≤ x
  | .nanr => False

/-! ## Helper lemmas -/

theorem apy_to_daily_rate_nonneg (apy : ℝ) : 0 ≤ apy_to_daily_rate apy := by
  unfold apy_to_daily_rate
  have hb : (1:ℝ) ≤ 1 + max apy 0 / 100 := by
    have : (0:ℝ) ≤ max apy 0 / 100 := div_nonneg (le_max_right _ _) (by norm_num)
    linarith
  have h2 : (1:ℝ) ^ ((1:ℝ) / 365) ≤ (1 + max apy 0 / 100) ^ ((1:ℝ) / 365) :=
    Real.rpow_le_rpow (by norm_num) hb (by norm_num)
  rw [Real.one_rpow] at h2
  linarith

theorem simple_daily_rate_from_apy_nonneg (apy : ℝ) : 0 ≤ simple_daily_rate_from_apy apy :=
  div_nonneg (div_nonneg (le_max_right _ _) (by norm_num)) (by norm_num)

theorem sorted_getLast?_eq {l : List ℤ} (hs : l.Sorted (· ≤ ·)) {H : ℤ}
    (hmem : H ∈ l) (hub : ∀ x ∈ l, x ≤ H) : l.getLast? = some H := by
  induction l with
  | nil => cases hmem
  | cons a t ih =>
    cases t with
    | nil =>
      simp only [List.mem_singleton] at hmem
      subst hmem
      rfl
    | cons b t' =>
      rw [List.getLast?_cons_cons]
      have hab : a ≤ b := List.rel_of_sorted_cons hs b (by simp)
      have hs' : (b :: t').Sorted (· ≤ ·) := hs.of_cons
      have hub' : ∀ x ∈ b :: t', x ≤ H := fun x hx => hub x (List.mem_cons_of_mem a hx)
      have hmem' : H ∈ b :: t' := by
        rcases List.mem_cons.mp hmem with rfl | hin
        · have hbH : b ≤ H := hub b (by simp)
          have hbef : b = H := le_antisymm hbH hab
          subst hbef
          exact List.mem_cons_self _ _
        · exact hin
      exact ih hs' hmem' hub'

theorem milestones_mem (h d : ℤ) :
    d ∈ milestones h ↔
      ((d ∈ ([1, 7, 14, 30, 60, 90, 180, 365] : List ℤ) ∧ 1 ≤ d ∧ d ≤ max h 1) ∨
        d = max h 1) := by
  unfold milestones
  rw [List.mem_filter, (List.perm_insertionSort _ _).mem_iff, List.mem_dedup]
  simp only [List.mem_cons, List.not_mem_nil, or_false, decide_eq_true_eq]
  omega

theorem milestones_sorted (h : ℤ) : (milestones h).Sorted (· < ·) := by
  unfold milestones
  have hs := List.sorted_insertionSort (· ≤ ·) ([1, 7, 14, 30, 60, 90, 180, 365, max h 1].dedup)
  have hn : (List.insertionSort (· ≤ ·)
      ([1, 7, 14, 30, 60, 90, 180, 365, max h 1].dedup)).Nodup :=
    (List.perm_insertionSort _ _).nodup_iff.mpr (List.nodup_dedup _)
  exact (List.Sorted.lt_of_le hs hn).filter _

theorem milestones_sorted_le (h : ℤ) : (milestones h).Sorted (· ≤ ·) := by
  unfold milestones
  exact (List.sorted_insertionSort (· ≤ ·) _).filter _

theorem milestones_getLast (h : ℤ) : (milestones h).getLast? = some (max h 1) := by
  apply sorted_getLast?_eq (milestones_sorted_le h)
  · exact (milestones_mem h (max h 1)).mpr (Or.inr rfl)
  · intro x hx
    rcases (milestones_mem h x).mp hx with ⟨_, _, hle⟩ | rfl
    · exact hle
    · exact le_refl _

theorem growth_table_days (p apy : ℝ) (h : ℤ) (c : Bool) :
    (project_growth_table p apy h c).map GrowthRow.day = milestones h := by
  unfold project_growth_table
  rw [List.map_map]
  show List.map id (milestones h) = milestones h
  exact List.map_id _

theorem pyRoundInt_of_lt (x : ℝ) (n : ℤ) (hn : ⌊x⌋ = n) (hlt : x - n < 1/2) :
    pyRoundInt x = n := by
  unfold pyRoundInt
  rw [hn, if_pos hlt]

theorem pyRoundInt_of_gt (x : ℝ) (n : ℤ) (hn : ⌊x⌋ = n) (hgt : 1/2 < x - n) :
    pyRoundInt x = n + 1 := by
  unfold pyRoundInt
  rw [hn, if_neg (by linarith), if_pos hgt]

/-! ## Claim theorems -/

/-- C1: for the constant-product formula `IL(m) = 2*sqrt(1+m)/(2+m) - 1`,
`IL(0) = 0` exactly, and `IL(m) <= 0` for every `m` with `1 + m > 0` and
`m /= 0`: impermanent loss is never a gain. -/
theorem impermanent_loss_invariants :
    impermanent_loss 0 = 0 ∧
      ∀ m : ℝ, 0 < 1 + m → m ≠ 0 → impermanent_loss m ≤ 0 := by
  constructor
  · simp [impermanent_loss, Real.sqrt_one]
  · intro m hm _
    unfold impermanent_loss
    have h2 : (0:ℝ) < 2 + m := by linarith
    rw [div_sub_one (ne_of_gt h2)]
    apply div_nonpos_of_nonpos_of_nonneg _ (le_of_lt h2)
    nlinarith [Real.sq_sqrt (le_of_lt hm), Real.sqrt_nonneg (1 + m),
      sq_nonneg (Real.sqrt (1 + m) - 1)]

/-- Witness for C1 at the concrete move `m = 3`. -/
theorem impermanent_loss_invariants_witness :
    impermanent_loss 0 = 0 ∧ (0:ℝ) < 1 + 3 ∧ (3:ℝ) ≠ 0 ∧ impermanent_loss 3 ≤ 0 :=
  ⟨impermanent_loss_invariants.1, by norm_num, by norm_num,
    impermanent_loss_invariants.2 3 (by norm_num) (by norm_num)⟩

/-- C2: for `apyPercent >= 0`, the compounded daily rate
`(1 + apy/100)^(1/365) - 1` satisfies the round-trip law
`(1 + dailyRate)^365 - 1 = apyPercent/100` exactly (over the idealised
reals). -/
theorem apy_to_daily_rate_roundtrip (apy : ℝ) (h : 0 ≤ apy) :
    (1 + apy_to_daily_rate apy) ^ (365 : ℕ) - 1 = apy / 100 := by
  unfold apy_to_daily_rate
  rw [max_eq_left h]
  have hb : (0:ℝ) ≤ 1 + apy / 100 := by
    linarith [div_nonneg h (by norm_num : (0:ℝ) ≤ 100)]
  have h1 : 1 + ((1 + apy / 100) ^ ((1:ℝ) / 365) - 1) = (1 + apy / 100) ^ ((1:ℝ) / 365) := by
    ring
  rw [h1, ← Real.rpow_natCast ((1 + apy / 100) ^ ((1:ℝ) / 365)) 365, ← Real.rpow_mul hb]
  norm_num

/-- Witness for C2 at `apyPercent = 12`. -/
theorem apy_to_daily_rate_roundtrip_witness :
    (0:ℝ) ≤ 12 ∧ (1 + apy_to_daily_rate 12) ^ (365 : ℕ) - 1 = 12 / 100 :=
  ⟨by norm_num, apy_to_daily_rate_roundtrip 12 (by norm_num)⟩

/-- C3 (evaluation of the code at the failing input): with the default
`step = 0.05` and `max_move = 0.50` (the doubles `dyOfRat 1 20` and
`dyOfRat 1 2`), `build_il_table` does produce 21 rows, but its
`Price move (%)` column is
`[-50, -45, -40, -35, -30, -25, -20, -15, -10, -5, 0, 4, 9, 14, 19, 24, 29, 34, 39, 44, 49]`:
numpy fills the grid with the reconstructed step
`delta = fl(fl(-0.5 + 0.05) - (-0.5)) = 0.04999999999999999 < 0.05`, so
the positive grid values fall just short of their targets
(`0.04999999999999982`, ..., `0.4999999999999998`) and `int(m * 100)`
truncates them down to `4, 9, ..., 49`: ten entries are not the
multiples of 5 the specification claims, and the `+50` endpoint shows
as `49`. -/
theorem build_il_table_default_grid (pos : ℝ) :
    (build_il_table pos (dyOfRat 1 20) (dyOfRat 1 2)).length = 21 ∧
    (build_il_table pos (dyOfRat 1 20) (dyOfRat 1 2)).map ILRow.priceMovePercent =
      [-50, -45, -40, -35, -30, -25, -20, -15, -10, -5, 0,
        4, 9, 14, 19, 24, 29, 34, 39, 44, 49] ∧
    (build_il_table pos (dyOfRat 1 20) (dyOfRat 1 2)).map ILRow.priceMovePercent ≠
      [-50, -45, -40, -35, -30, -25, -20, -15, -10, -5, 0,
        5, 10, 15, 20, 25, 30, 35, 40, 45, 50] := by
  have hcol : (build_il_table pos (dyOfRat 1 20) (dyOfRat 1 2)).map ILRow.priceMovePercent =
      [-50, -45, -40, -35, -30, -25, -20, -15, -10, -5, 0,
        4, 9, 14, 19, 24, 29, 34, 39, 44, 49] := by
    unfold build_il_table
    rw [List.map_map]
    show (npArange (dyNeg (dyOfRat 1 2)) (dyAdd (dyOfRat 1 2) (dyOfRat 1 20))
      (dyOfRat 1 20)).map (fun mv => dyTrunc (dyMul mv (dyOfInt 100))) = _
    decide
  refine ⟨?_, hcol, ?_⟩
  · unfold build_il_table
    rw [List.length_map]
    decide
  · rw [hcol]
    decide

/-- C4: the day column of `project_growth_table` is strictly ascending
(hence duplicate-free), its members are exactly the base milestones
`{1, 7, 14, 30, 60, 90, 180, 365}` that lie in `[1, horizon]` together
with the clamped horizon `max horizonDays 1` itself, its last entry is the
clamped horizon, and in particular the table for
`(100, 10, 30, compounded)` has day column `[1, 7, 14, 30]`. -/
theorem project_growth_table_milestone_days (p apy : ℝ) (h : ℤ) (c : Bool) :
    ((project_growth_table p apy h c).map GrowthRow.day).Sorted (· < ·) ∧
    (∀ d : ℤ, d ∈ (project_growth_table p apy h c).map GrowthRow.day ↔
      ((d ∈ ([1, 7, 14, 30, 60, 90, 180, 365] : List ℤ) ∧ 1 ≤ d ∧ d ≤ max h 1) ∨
        d = max h 1)) ∧
    ((project_growth_table p apy h c).map GrowthRow.day).getLast? = some (max h 1) ∧
    (project_growth_table 100 10 30 true).map GrowthRow.day = [1, 7, 14, 30] := by
  rw [growth_table_days, growth_table_days]
  exact ⟨milestones_sorted h, milestones_mem h, milestones_getLast h, by decide⟩

/-- C5 counterexample: for `project_growth_table(0.567, 36500, 1, simple)`
the single row stores `startValue = 0.57`, `endValue = 1.13` and
`profit = 0.57` (the exact end value is `1.134`), so the stored `profit`
differs from `endValue - startValue = 0.56`: the invariant fails over the
stored, 2-decimal-rounded amounts, and the stored `startValue` also
differs from the original `positionUsd = 0.567`. -/
theorem project_growth_table_stored_profit_mismatch :
    (project_growth_table (567/1000) 36500 1 false).map
      (fun row => (row.startValue, row.endValue, row.profit)) =
      [((57/100 : ℝ), (113/100 : ℝ), (57/100 : ℝ))] ∧
    ((57/100 : ℝ) ≠ 113/100 - 57/100 ∧ (57/100 : ℝ) ≠ 567/1000) := by
  have hev : project_end_value (567/1000) 36500 1 false = 567/500 := by
    unfold project_end_value simple_daily_rate_from_apy
    rw [if_neg (by decide : ¬(false = true)),
      max_eq_left (by norm_num : (0:ℝ) ≤ 567/1000),
      max_eq_left (by norm_num : (0:ℤ) ≤ 1),
      max_eq_left (by norm_num : (0:ℝ) ≤ 36500)]
    norm_num
  have h1 : pyRound2 (567/1000 : ℝ) = 57/100 := by
    unfold pyRound2
    rw [show (567/1000 : ℝ) * 100 = 567/10 by norm_num,
      pyRoundInt_of_gt (567/10 : ℝ) 56 (by rw [Int.floor_eq_iff] ; push_cast ; norm_num)
        (by push_cast; norm_num)]
    norm_num
  have h2 : pyRound2 (567/500 : ℝ) = 113/100 := by
    unfold pyRound2
    rw [show (567/500 : ℝ) * 100 = 567/5 by norm_num,
      pyRoundInt_of_lt (567/5 : ℝ) 113 (by rw [Int.floor_eq_iff] ; push_cast ; norm_num)
        (by push_cast; norm_num)]
    norm_num
  have hm : milestones 1 = [1] := by decide
  constructor
  · unfold project_growth_table
    rw [hm]
    show [(pyRound2 (567/1000), pyRound2 (project_end_value (567/1000) 36500 1 false),
      pyRound2 (project_end_value (567/1000) 36500 1 false - 567/1000))] = _
    rw [hev, show (567/500 : ℝ) - 567/1000 = 567/1000 by norm_num, h1, h2]
  · constructor
    · norm_num
    · norm_num

/-- C5 amended: in every `project_growth_table` row, the stored
`startValue` is `round(positionUsd, 2)` (hence constant across the rows of
one table, but the rounding of the original position rather than the
position itself), and the stored `profit` is the difference of the
full-precision end value and the original position rounded once,
`round(endValue_raw - positionUsd, 2)` - not the difference of the two
stored rounded amounts. -/
theorem project_growth_table_profit_full_precision (p apy : ℝ) (h : ℤ) (c : Bool)
    (row : GrowthRow) (hrow : row ∈ project_growth_table p apy h c) :
    row.startValue = pyRound2 p ∧
    row.profit = pyRound2 (project_end_value p apy row.day c - p) := by
  unfold project_growth_table at hrow
  rcases List.mem_map.mp hrow with ⟨d, hd, rfl⟩
  exact ⟨rfl, rfl⟩

/-- Witness for the amended C5 at the first row of
`project_growth_table(100, 10, 30, compounded)`. -/
theorem project_growth_table_profit_full_precision_witness :
    ∃ row ∈ project_growth_table 100 10 30 true,
      row.startValue = pyRound2 100 ∧
      row.profit = pyRound2 (project_end_value 100 10 row.day true - 100) := by
  have hmem : (⟨1, pyRound2 100, pyRound2 (project_end_value 100 10 1 true),
      pyRound2 (project_end_value 100 10 1 true - 100)⟩ : GrowthRow) ∈
      project_growth_table 100 10 30 true := by
    unfold project_growth_table
    rw [show milestones 30 = [1, 7, 14, 30] by decide]
    exact List.mem_map_of_mem _ (by norm_num)
  exact ⟨_, hmem, project_growth_table_profit_full_precision 100 10 30 true _ hmem⟩

/-- C6: with a nonnegative position, a day count `<= 0` (zero or negative,
the latter clamped to zero by `max(int(days), 0)`) returns the position
unchanged under both compounding policies. -/
theorem project_end_value_clamped_days_identity (p apy : ℝ) (days : ℤ) (c : Bool)
    (hp : 0 ≤ p) (hd : days ≤ 0) : project_end_value p apy days c = p := by
  cases c <;>
    simp [project_end_value, max_eq_right hd, max_eq_left hp]

/-- Witness for C6 at `p = 5`, `apy = 7`, days `-3` and `0`, both policies. -/
theorem project_end_value_clamped_days_identity_witness :
    (0:ℝ) ≤ 5 ∧ (-3:ℤ) ≤ 0 ∧
    project_end_value 5 7 (-3) true = 5 ∧ project_end_value 5 7 0 false = 5 :=
  ⟨by norm_num, by norm_num,
    project_end_value_clamped_days_identity 5 7 (-3) true (by norm_num) (by norm_num),
    project_end_value_clamped_days_identity 5 7 0 false (by norm_num) (by norm_num)⟩

/-- C7 counterexample: the claim includes a null APY among the values
clamped to `0`, but the rate converter applied to null raises `TypeError`
(no clamp happens), and applied to NaN - what the data pipeline actually
delivers for an absent APY - it returns a NaN rate, which is not `>= 0`:
the claimed clamping covers negative values only. -/
theorem apy_to_daily_rate_null_raises_nan_propagates :
    apy_to_daily_rate_py PyVal.null = Except.error "TypeError" ∧
    apy_to_daily_rate_py PyVal.nanv = Except.ok RFloat.nanr ∧
    ¬ rfloatNonneg RFloat.nanr :=
  ⟨rfl, rfl, fun h => h⟩

/-- C7 amended: for every finite float APY (negative values included -
they are clamped to `0` before conversion; a null APY instead raises
`TypeError` in `float(...)` and a NaN APY propagates to a NaN rate),
both daily rates are nonnegative, and under both policies the projected
end value is at least `max(positionUsd, 0)` and is nondecreasing in the
day count: yield never reduces principal. -/
theorem project_end_value_preserves_principal (apy : ℝ) :
    0 ≤ apy_to_daily_rate apy ∧
    0 ≤ simple_daily_rate_from_apy apy ∧
    ∀ (c : Bool) (p : ℝ) (d1 d2 : ℤ),
      max p 0 ≤ project_end_value p apy d1 c ∧
      (d1 ≤ d2 → project_end_value p apy d1 c ≤ project_end_value p apy d2 c) := by
  have hr : 0 ≤ apy_to_daily_rate apy := apy_to_daily_rate_nonneg apy
  have hs : 0 ≤ simple_daily_rate_from_apy apy := simple_daily_rate_from_apy_nonneg apy
  refine ⟨hr, hs, fun c p d1 d2 => ?_⟩
  have hp0 : (0:ℝ) ≤ max p 0 := le_max_right _ _
  have hd0 : (0:ℝ) ≤ ((max d1 0 : ℤ) : ℝ) := by positivity
  cases c with
  | true =>
    simp only [project_end_value, if_pos]
    constructor
    · exact le_mul_of_one_le_right hp0 (one_le_pow₀ (by linarith))
    · intro h
      exact mul_le_mul_of_nonneg_left
        (pow_le_pow_right₀ (by linarith)
          (Int.toNat_le_toNat (max_le_max h (le_refl (0:ℤ))))) hp0
  | false =>
    simp only [project_end_value, if_neg]
    constructor
    · refine le_mul_of_one_le_right hp0 ?_
      nlinarith [mul_nonneg hs hd0]
    · intro h
      have hdle : ((max d1 0 : ℤ) : ℝ) ≤ ((max d2 0 : ℤ) : ℝ) := by
        exact_mod_cast max_le_max h (le_refl (0:ℤ))
      refine mul_le_mul_of_nonneg_left ?_ hp0
      have := mul_le_mul_of_nonneg_left hdle hs
      linarith

/-- Witness for C7 at the clamped APY `-5`, position `100`, days `3 <= 5`. -/
theorem project_end_value_preserves_principal_witness :
    0 ≤ apy_to_daily_rate (-5) ∧
    max (100:ℝ) 0 ≤ project_end_value 100 (-5) 3 true ∧
    project_end_value 100 (-5) 3 true ≤ project_end_value 100 (-5) 5 true :=
  ⟨(project_end_value_preserves_principal (-5)).1,
    ((project_end_value_preserves_principal (-5)).2.2 true 100 3 5).1,
    ((project_end_value_preserves_principal (-5)).2.2 true 100 3 5).2 (by norm_num)⟩

/-- C8 counterexample: a pool record whose `tvlUsd` field holds the
malformed numeric string `"n/a"` makes `assess_pool_quality` raise
`ValueError`: the `float(...)` conversions of `tvlUsd` and `apy` are not
guarded by the `try/except` that protects only the volume field, so a
malformed numeric field is fatal rather than treated as `0`. -/
theorem assess_pool_quality_malformed_tvl_raises :
    assess_pool_quality [("tvlUsd", PyVal.str "n/a")] = Except.error "ValueError" := rfl

/-- C8 amended: `assess_pool_quality` returns a `PoolQuality` for every
record whose `tvlUsd` and `apy` fields are convertible by `float(...)`
after the `or 0.0` defaulting (absent, `None`, falsy, numeric, NaN,
boolean or numeric-string values - and any value at all in the volume and
outlier fields); only a truthy non-convertible `tvlUsd` or `apy` raises. -/
theorem assess_pool_quality_total_on_convertible (row : List (String × PyVal))
    (htvl : ∃ t, pyFloat (pyOr (getField row "tvlUsd") (PyVal.num 0)) = Except.ok t)
    (hapy : ∃ t, pyFloat (pyOr (getField row "apy") (PyVal.num 0)) = Except.ok t) :
    ∃ q, assess_pool_quality row = Except.ok q := by
  obtain ⟨tvl, h1⟩ := htvl
  obtain ⟨apy, h2⟩ := hapy
  unfold assess_pool_quality
  rw [h1, h2]
  exact ⟨_, rfl⟩

/-- Witness for the amended C8 at the specification's test record
`tvlUsd = 50000`, `apy = 0`, `volumeUsd7d = None`. -/
theorem assess_pool_quality_total_on_convertible_witness :
    (∃ t, pyFloat (pyOr (getField
      [("tvlUsd", PyVal.num 50000), ("apy", PyVal.num 0), ("volumeUsd7d", PyVal.null)]
      "tvlUsd") (PyVal.num 0)) = Except.ok t) ∧
    (∃ q, assess_pool_quality
      [("tvlUsd", PyVal.num 50000), ("apy", PyVal.num 0), ("volumeUsd7d", PyVal.null)] =
      Except.ok q) :=
  ⟨⟨FloatVal.num 50000, rfl⟩,
    assess_pool_quality_total_on_convertible _ ⟨FloatVal.num 50000, rfl⟩ ⟨FloatVal.num 0, rfl⟩⟩

/-- C9: the impermanent-loss formula is not mirror-symmetric - at
`m = 1/2` (both `1 + m > 0` and `1 - m > 0`) the same formula applied to
`+m` and `-m` gives different values. -/
theorem impermanent_loss_not_mirror_symmetric :
    ∃ m : ℝ, 0 < 1 + m ∧ 0 < 1 - m ∧ impermanent_loss m ≠ impermanent_loss (-m) := by
  refine ⟨1/2, by norm_num, by norm_num, ?_⟩
  unfold impermanent_loss
  intro h
  rw [show (1 : ℝ) + 1/2 = 3/2 by norm_num, show (1 : ℝ) + -(1/2) = 1/2 by norm_num,
    show (2 : ℝ) + 1/2 = 5/2 by norm_num, show (2 : ℝ) + -(1/2) = 3/2 by norm_num] at h
  have key : 3 * Real.sqrt (3/2) = 5 * Real.sqrt (1/2) := by linarith
  have ha : Real.sqrt (3/2) ^ 2 = 3/2 := Real.sq_sqrt (by norm_num)
  have hb : Real.sqrt (1/2) ^ 2 = 1/2 := Real.sq_sqrt (by norm_num)
  have h2 : (3 * Real.sqrt (3/2)) ^ 2 = (5 * Real.sqrt (1/2)) ^ 2 := by rw [key]
  rw [mul_pow, mul_pow, ha, hb] at h2
  norm_num at h2

/-- C10: in every `PoolQuality` produced by `assess_pool_quality`,
`very_thin_tvl` implies `thin_tvl`: both flags compare the same effective
TVL against the nested thresholds `100000 < 250000`. -/
theorem assess_pool_quality_very_thin_implies_thin (row : List (String × PyVal))
    (q : PoolQuality) (hq : assess_pool_quality row = Except.ok q)
    (hv : q.very_thin_tvl = true) : q.thin_tvl = true := by
  unfold assess_pool_quality at hq
  cases h1 : pyFloat (pyOr (getField row "tvlUsd") (PyVal.num 0)) with
  | error e => rw [h1] at hq; exact Except.noConfusion hq
  | ok tvl =>
    rw [h1] at hq
    cases h2 : pyFloat (pyOr (getField row "apy") (PyVal.num 0)) with
    | error e => rw [h2] at hq; exact Except.noConfusion hq
    | ok apy =>
      rw [h2] at hq
      injection hq with hq'
      subst hq'
      have hv' : fvLt tvl 100000 = true := hv
      show fvLt tvl 250000 = true
      cases tvl with
      | nanv => simp [fvLt] at hv'
      | num v =>
        simp only [fvLt, decide_eq_true_eq] at hv' ⊢
        linarith

/-- Witness for C10 at a record with `tvlUsd = 50000`. -/
theorem assess_pool_quality_very_thin_implies_thin_witness :
    assess_pool_quality [("tvlUsd", PyVal.num 50000)] =
      Except.ok (⟨FloatVal.num 50000, false, Option.none, FloatVal.num 0,
        true, true, true⟩ : PoolQuality) ∧
    (⟨FloatVal.num 50000, false, Option.none, FloatVal.num 0,
        true, true, true⟩ : PoolQuality).thin_tvl = true :=
  ⟨rfl, assess_pool_quality_very_thin_implies_thin [("tvlUsd", PyVal.num 50000)]
    (⟨FloatVal.num 50000, false, Option.none, FloatVal.num 0, true, true, true⟩ : PoolQuality)
    rfl rfl⟩
